import Mathlib
/-!
Verification development for the AI video generation service.

The embedding translates the server-side code of the repository:
* the fixed-window rate limiter (`lib/rate-limit.ts`),
* the `/api/generate` route: `POST`, `GET` and the background `processTask`
  together with its in-memory task store,
* the `/api/generate-video` route: `POST` and `GET` with its own
  in-memory `videoTasks` store.

JavaScript objects and `Map`s keyed by strings are modelled as association
lists with `getKey`/`setKey`/`delKey`.  `Date.now()` timestamps are natural
numbers passed explicitly.  External HTTP responses (the Runway API) are
explicit parameters of the functions that await them.
-/

/-! ## Definitions -/

/-- Lookup in an association list, first binding wins (models `map.get` /
`obj[key]`). -/
def getKey {α : Type} : List (String × α) → String → Option α
  | [], _ => none
  | (k', v) :: rest, k => if k' = k then some v else getKey rest k

/-- Replace the first binding of a key, or append one (models `map.set` /
`obj[key] = v`). -/
def setKey {α : Type} : List (String × α) → String → α → List (String × α)
  | [], k, v => [(k, v)]
  | (k', v') :: rest, k, v =>
      if k' = k then (k, v) :: rest else (k', v') :: setKey rest k v

/-- Remove the bindings of a key (models `map.delete` / `delete obj[key]`). -/
def delKey {α : Type} : List (String × α) → String → List (String × α)
  | [], _ => []
  | (k', v) :: rest, k =>
      if k' = k then delKey rest k else (k', v) :: delKey rest k

/-- JavaScript falsiness of an optional string: `null`/`undefined` or `""`. -/
def falsyStr : Option String → Bool
  | none => true
  | some s => s = ""

/-- `s.startsWith(pre)`, computed on the character lists. -/
def strStartsWith (s pre : String) : Bool := pre.data.isPrefixOf s.data

/-- One fixed-window entry of the rate limiter store. -/
structure RateLimitEntry where
  count : Nat
  resetTime : Nat
deriving DecidableEq

/-- The `RateLimit` class: a store of per-key windows plus the configured
limit and window length.  The exported singleton uses `limit = 10`,
`windowMs = 60000`. -/
structure RateLimit where
  store : List (String × RateLimitEntry)
  limit : Nat
  windowMs : Nat
deriving DecidableEq

/-- Result of `RateLimit.check`.  `remaining` is an integer because the
source computes it by subtraction on JavaScript numbers. -/
structure CheckResult where
  success : Bool
  remaining : Int
deriving DecidableEq

/-- `RateLimit.check(key)` at time `now`: expired entries are deleted and the
window restarts at count 1; within the window the count is incremented until
it reaches the limit, after which the check fails with `remaining = 0`. -/
def RateLimit.check (rl : RateLimit) (key : String) (now : Nat) :
    CheckResult × RateLimit :=
  match getKey rl.store key with
  | none =>
      (⟨true, (rl.limit : Int) - 1⟩,
       { rl with store := setKey rl.store key ⟨1, now + rl.windowMs⟩ })
  | some entry =>
      if now > entry.resetTime then
        (⟨true, (rl.limit : Int) - 1⟩,
         { rl with store := setKey (delKey rl.store key) key ⟨1, now + rl.windowMs⟩ })
      else if entry.count ≥ rl.limit then
        (⟨false, 0⟩, rl)
      else
        (⟨true, (rl.limit : Int) - ((entry.count : Int) + 1)⟩,
         { rl with store := setKey rl.store key ⟨entry.count + 1, entry.resetTime⟩ })

/-- Run a sequence of checks for one key at the given times, threading the
store. -/
def runChecks (rl : RateLimit) (key : String) : List Nat → List CheckResult × RateLimit
  | [] => ([], rl)
  | t :: ts =>
      let first := rl.check key t
      let rest := runChecks first.2 key ts
      (first.1 :: rest.1, rest.2)

namespace GenerateApi

/-- `'image' | 'video'`. -/
inductive TaskType where
  | image
  | video
deriving DecidableEq

/-- `'pending' | 'processing' | 'completed' | 'failed'`. -/
inductive TaskStatus where
  | pending
  | processing
  | completed
  | failed
deriving DecidableEq

/-- The `Task` record of the route module. -/
structure Task where
  id : String
  type : TaskType
  status : TaskStatus
  progress : Nat
  result : Option String
  error : Option String
  createdAt : Nat
deriving DecidableEq

/-- The in-memory `tasks` object, keyed by task id. -/
abbrev TaskStore := List (String × Task)

def MAX_CONCURRENT_TASKS : Nat := 5

def MAX_PROMPT_LENGTH : Nat := 1000

/-- The response of the awaited `fetch` to the Runway endpoint, reduced to
the fields the route reads: `ok`, `statusText`, the error body text, and
`data.output?.[kind]` collapsed to the optional extracted URL. -/
structure FetchResponse where
  ok : Bool
  statusText : String
  errorData : String
  output : Option String
deriving DecidableEq

/-- The task created by `POST` before processing starts. -/
def newTask (taskId : String) (ty : TaskType) (now : Nat) : Task :=
  ⟨taskId, ty, .pending, 0, none, none, now⟩

def kindName : TaskType → String
  | .image => "image"
  | .video => "video"

/-- Synchronous prefix of `processTask` (everything before the first
`await`): look the task up, mark it `processing`, and fail it at once when
`RUNWAY_API_KEY` is missing.  Returns the store, a cleanup delay scheduled
during this prefix, and whether the function goes on to the fetch. -/
def processTaskSync (tasks : TaskStore) (taskId : String) (apiKey : Option String) :
    TaskStore × Option Nat × Bool :=
  match getKey tasks taskId with
  | none => (tasks, none, false)
  | some task =>
      match apiKey with
      | none =>
          (setKey tasks taskId
            { task with status := .failed,
                        error := some "RUNWAY_API_KEY is not configured" },
           some 900000, false)
      | some _ =>
          (setKey tasks taskId { task with status := .processing }, none, true)

/-- Outcome of the Runway call as `processTask` interprets it: a response
that is not `ok`, or one whose payload lacks the URL, is an error. -/
def runwayResult (ty : TaskType) (resp : FetchResponse) : Except String String :=
  if !resp.ok then
    .error ("Runway API error: " ++ resp.statusText ++ ". " ++ resp.errorData)
  else
    match resp.output with
    | none => .error ("No " ++ kindName ty ++ " URL returned from Runway API")
    | some url => .ok url

/-- Resumption of `processTask` after the fetch resolves: mutate the task to
`completed` (progress 100, result URL) or `failed` (error message) and
return the cleanup delay passed to `setTimeout` (1 hour after success,
15 minutes after failure).  The delay is scheduled even if the record was
deleted meanwhile, in which case the mutation is invisible. -/
def processTaskResume (tasks : TaskStore) (taskId : String) (ty : TaskType)
    (resp : FetchResponse) : TaskStore × Nat :=
  match getKey tasks taskId with
  | none =>
      (tasks, match runwayResult ty resp with
              | .ok _ => 3600000
              | .error _ => 900000)
  | some task =>
      match runwayResult ty resp with
      | .ok url =>
          (setKey tasks taskId
            { task with status := .completed, progress := 100, result := some url },
           3600000)
      | .error msg =>
          (setKey tasks taskId { task with status := .failed, error := some msg },
           900000)

/-- The branch `POST` returns through, one constructor per `return` site. -/
inductive PostResult where
  | rateLimited
  | missingFields
  | invalidType
  | promptTooLong
  | capacityError
  | created (taskId : String)
deriving DecidableEq

def PostResult.httpStatus : PostResult → Nat
  | .rateLimited => 429
  | .missingFields => 400
  | .invalidType => 400
  | .promptTooLong => 400
  | .capacityError => 429
  | .created _ => 200

def PostResult.isValidationError : PostResult → Bool
  | .missingFields => true
  | .invalidType => true
  | .promptTooLong => true
  | _ => false

/-- `Object.values(tasks).filter(t => pending or processing)`. -/
def activeTasks (tasks : TaskStore) : List Task :=
  (tasks.map Prod.snd).filter
    (fun t => decide (t.status = .pending) || decide (t.status = .processing))

def parseType (t : String) : TaskType :=
  if t = "image" then .image else .video

/-- Everything `POST` leaves behind: the chosen response, the task store and
rate-limiter state after the handler returns (including the synchronous
prefix of `processTask`), the background job awaiting its fetch, and any
cleanup already scheduled. -/
structure PostEffect where
  res : PostResult
  tasks : TaskStore
  rl : RateLimit
  job : Option (String × TaskType)
  cleanup : Option (String × Nat)
deriving DecidableEq

/-- The `POST` handler: rate limit, validate `type` and `prompt`, enforce
the concurrency cap, then store a `pending` task and start `processTask`
(whose synchronous prefix runs before the response is produced).
`taskId` stands for the generated `crypto.randomUUID()`. -/
def POST (rl : RateLimit) (ip : String) (now : Nat)
    (type? : Option String) (prompt? : Option String)
    (tasks : TaskStore) (taskId : String) (apiKey : Option String) : PostEffect :=
  let checked := rl.check ip now
  let rl' := checked.2
  if !checked.1.success then
    ⟨.rateLimited, tasks, rl', none, none⟩
  else if falsyStr type? || falsyStr prompt? then
    ⟨.missingFields, tasks, rl', none, none⟩
  else
    let t := type?.getD ""
    let p := prompt?.getD ""
    if !(t = "image" || t = "video") then
      ⟨.invalidType, tasks, rl', none, none⟩
    else if p.length > MAX_PROMPT_LENGTH then
      ⟨.promptTooLong, tasks, rl', none, none⟩
    else if (activeTasks tasks).length ≥ MAX_CONCURRENT_TASKS then
      ⟨.capacityError, tasks, rl', none, none⟩
    else
      let ty := parseType t
      let tasks1 := setKey tasks taskId (newTask taskId ty now)
      let sync := processTaskSync tasks1 taskId apiKey
      ⟨.created taskId, sync.1, rl',
       if sync.2.2 then some (taskId, ty) else none,
       sync.2.1.map (fun d => (taskId, d))⟩

/-- The branch `GET` returns through. -/
inductive GetResult where
  | missingId
  | notFound
  | ok (task : Task)
deriving DecidableEq

def GetResult.httpStatus : GetResult → Nat
  | .missingId => 400
  | .notFound => 404
  | .ok _ => 200

/-- The `GET ?taskId=` handler: 400 when the id is missing or empty, 404
when the store has no record, otherwise the current record.  It never
writes to the store. -/
def GET (tasks : TaskStore) (taskId? : Option String) : GetResult :=
  if falsyStr taskId? then .missingId
  else
    match getKey tasks (taskId?.getD "") with
    | none => .notFound
    | some task => .ok task

end GenerateApi

namespace GenerateVideoApi

/-- A record of the untyped `videoTasks` store, with the fields the route
writes: `id`, `status` (a raw string copied from upstream), `progress`,
`videoUrl`, `error`, `createdAt`. -/
structure VideoTask where
  id : String
  status : String
  progress : Nat
  videoUrl : Option String
  error : Option String
  createdAt : Nat
deriving DecidableEq

/-- The in-memory `videoTasks` object. -/
abbrev VStore := List (String × VideoTask)

/-- The uploaded `File`, reduced to the field the route inspects. -/
structure UploadedFile where
  mimeType : String
deriving DecidableEq

/-- Outcome of `runway.imageToVideo.create`: the created task id, or the
thrown SDK error message. -/
abbrev SdkOutcome := Except String String

/-- The direct-API fallback fetch, reduced to the fields the route reads. -/
structure FallbackResponse where
  ok : Bool
  id : String
  status : Option String
  errorText : String
deriving DecidableEq

/-- The branch the `POST` handler returns through. -/
inductive PostVideoResult where
  | badRequest (msg : String)
  | success (taskId : String) (status : String)
  | fallbackSuccess (taskId : String) (status : Option String)
  | serverError
deriving DecidableEq

def PostVideoResult.httpStatus : PostVideoResult → Nat
  | .badRequest _ => 400
  | .success _ _ => 200
  | .fallbackSuccess _ _ => 200
  | .serverError => 500

def PostVideoResult.isBadRequest : PostVideoResult → Bool
  | .badRequest _ => true
  | _ => false

/-- `data.status || 'pending'` used when the fallback stores its record. -/
def statusOrPending : Option String → String
  | none => "pending"
  | some s => if s = "" then "pending" else s

/-- The catch-block fallback: re-read the form data (`fbRead` false models
the re-read itself throwing), retry with a direct `fetch`, and store the
task on success.  `called` records whether any upstream request was made
before entering the fallback. -/
def fallbackPath (store : VStore) (now : Nat) (fbRead : Bool)
    (fb : FallbackResponse) (called : Bool) : PostVideoResult × VStore × Bool :=
  if !fbRead then (.serverError, store, called)
  else if !fb.ok then (.serverError, store, true)
  else
    (.fallbackSuccess fb.id fb.status,
     setKey store fb.id ⟨fb.id, statusOrPending fb.status, 0, none, none, now⟩,
     true)

/-- The `POST` handler: require an image file and a prompt, require an
`image/*` MIME type, then create an upstream task via the SDK (or the
fallback fetch after any throw, including a missing `RUNWAY_API_KEY`) and
record it as `pending`.  The returned `Bool` says whether any upstream call
was made. -/
def POST (store : VStore) (image? : Option UploadedFile) (prompt? : Option String)
    (apiKey : Option String) (now : Nat)
    (sdk : SdkOutcome) (fbRead : Bool) (fb : FallbackResponse) :
    PostVideoResult × VStore × Bool :=
  match image?, prompt? with
  | none, _ => (.badRequest "Image and prompt are required.", store, false)
  | some _, none => (.badRequest "Image and prompt are required.", store, false)
  | some img, some _ =>
      if !(strStartsWith img.mimeType "image/") then
        (.badRequest "Invalid file type. Please upload an image.", store, false)
      else
        match apiKey with
        | none => fallbackPath store now fbRead fb false
        | some _ =>
            match sdk with
            | .error _ => fallbackPath store now fbRead fb true
            | .ok taskId =>
                (.success taskId "pending",
                 setKey store taskId ⟨taskId, "pending", 0, none, none, now⟩,
                 true)

/-- The upstream `GET /v1/tasks/taskId` response, reduced to the fields the
route reads. -/
structure StatusResponse where
  ok : Bool
  status : String
  output : Option String
  error : Option String
deriving DecidableEq

/-- The branch the `GET` handler returns through. -/
inductive GetVideoResult where
  | missingId
  | configError
  | upstreamError
  | ok (taskId : String) (status : String) (progress : Nat)
       (videoUrl : Option String) (error : Option String)
deriving DecidableEq

def GetVideoResult.httpStatus : GetVideoResult → Nat
  | .missingId => 400
  | .configError => 500
  | .upstreamError => 500
  | .ok _ _ _ _ _ => 200

/-- The `GET ?taskId=` handler: 400 without an id, 500 without the API key,
500 when the upstream status query fails; otherwise it overwrites the local
record (when present) with the upstream-reported status and derived fields,
and answers with the upstream data.  Presence in the local store is never
consulted for the response. -/
def GET (store : VStore) (taskId? : Option String) (apiKey : Option String)
    (resp : StatusResponse) : GetVideoResult × VStore :=
  if falsyStr taskId? then (.missingId, store)
  else
    let tid := taskId?.getD ""
    match apiKey with
    | none => (.configError, store)
    | some _ =>
        if !resp.ok then (.upstreamError, store)
        else
          let prog : Nat :=
            if resp.status = "SUCCEEDED" then 100
            else if resp.status = "FAILED" then 0
            else 50
          let store' :=
            match getKey store tid with
            | none => store
            | some vt =>
                let vt1 := { vt with status := resp.status, progress := prog }
                let vt2 :=
                  if resp.status = "SUCCEEDED" then
                    match resp.output with
                    | some o => { vt1 with videoUrl := some o }
                    | none => vt1
                  else vt1
                let vt3 :=
                  if resp.status = "FAILED" then
                    match resp.error with
                    | some e => { vt2 with error := some e }
                    | none => vt2
                  else vt2
                setKey store tid vt3
          (.ok tid resp.status.toLower prog
            (if resp.status = "SUCCEEDED" then resp.output else none)
            (if resp.status = "FAILED" then resp.error else none),
           store')

end GenerateVideoApi

namespace GenerateApi

/-- Global state of the `/api/generate` slice: the task store, the
background `processTask` calls currently awaiting their fetch, and the
deletions scheduled by `setTimeout` that have not fired yet. -/
structure Sys where
  tasks : TaskStore
  jobs : List (String × TaskType)
  cleanups : List (String × Nat)
deriving DecidableEq

/-- One atomic action on the shared state, at the suspension points of the
runtime.  `post` is an admitted `POST` request together with the
synchronous prefix of the `processTask` it spawns (they run without an
intervening await); `finish` is the resumption of a pending `processTask`
when its fetch resolves; `expire` is a scheduled deletion firing.  `GET`
never writes to the store and needs no step. -/
inductive Step (apiKey : Option String) : Sys → Sys → Prop where
  | post (s : Sys) (rl : RateLimit) (ip : String) (now : Nat)
      (type? prompt? : Option String) (taskId : String)
      (hfresh : getKey s.tasks taskId = none)
      (hcreated : (POST rl ip now type? prompt? s.tasks taskId apiKey).res =
        .created taskId) :
      Step apiKey s
        ⟨(POST rl ip now type? prompt? s.tasks taskId apiKey).tasks,
         s.jobs ++ (POST rl ip now type? prompt? s.tasks taskId apiKey).job.toList,
         s.cleanups ++
           (POST rl ip now type? prompt? s.tasks taskId apiKey).cleanup.toList⟩
  | finish (s : Sys) (taskId : String) (ty : TaskType) (resp : FetchResponse)
      (hjob : (taskId, ty) ∈ s.jobs) :
      Step apiKey s
        ⟨(processTaskResume s.tasks taskId ty resp).1,
         s.jobs.erase (taskId, ty),
         s.cleanups ++ [(taskId, (processTaskResume s.tasks taskId ty resp).2)]⟩
  | expire (s : Sys) (taskId : String) (d : Nat)
      (hcu : (taskId, d) ∈ s.cleanups) :
      Step apiKey s ⟨delKey s.tasks taskId, s.jobs, s.cleanups.erase (taskId, d)⟩

/-- States reachable from the empty store with no pending work. -/
inductive Reachable (apiKey : Option String) : Sys → Prop where
  | init : Reachable apiKey ⟨[], [], []⟩
  | step {s s' : Sys} : Reachable apiKey s → Step apiKey s s' → Reachable apiKey s'

/-- `result` implies `completed`, `error` implies `failed`. -/
def fieldsOk (tasks : TaskStore) : Prop :=
  ∀ id t, getKey tasks id = some t →
    (t.result.isSome = true → t.status = .completed) ∧
    (t.error.isSome = true → t.status = .failed)

/-- Every pending fetch belongs to a live `processing` record with no
result and no error yet. -/
def jobsOk (s : Sys) : Prop :=
  ∀ id ty, (id, ty) ∈ s.jobs →
    ∃ t, getKey s.tasks id = some t ∧ t.status = .processing ∧
         t.result = none ∧ t.error = none

/-- Every scheduled deletion points at a live terminal record and carries
the delay fixed for that terminal status. -/
def cleanupsOk (s : Sys) : Prop :=
  ∀ id d, (id, d) ∈ s.cleanups →
    ∃ t, getKey s.tasks id = some t ∧
      ((t.status = .completed ∧ d = 3600000) ∨ (t.status = .failed ∧ d = 900000))

/-- Every terminal record has its deletion scheduled with the fixed delay. -/
def termSched (s : Sys) : Prop :=
  ∀ id t, getKey s.tasks id = some t →
    (t.status = .completed → (id, 3600000) ∈ s.cleanups) ∧
    (t.status = .failed → (id, 900000) ∈ s.cleanups)

def jobsNodup (s : Sys) : Prop := (s.jobs.map Prod.fst).Nodup

def cleanupsNodup (s : Sys) : Prop := (s.cleanups.map Prod.fst).Nodup

/-- The inductive invariant of the `/api/generate` slice. -/
def Inv (s : Sys) : Prop :=
  fieldsOk s.tasks ∧ jobsOk s ∧ cleanupsOk s ∧ termSched s ∧
    jobsNodup s ∧ cleanupsNodup s

/-- Formalization of the transition order claimed by the spec:
a status write moves along `pending → processing → {completed, failed}`
(staying put is allowed, regressing or leaving a terminal state is not). -/
def specForward (a b : TaskStatus) : Prop :=
  a = b ∨ (a = .pending ∧ (b = .processing ∨ b = .completed ∨ b = .failed)) ∨
    (a = .processing ∧ (b = .completed ∨ b = .failed))

end GenerateApi

/-- The result of a check performed while the stored count is `c` (the
fresh first check of a window corresponds to `c = 0`). -/
def resultAt (L c : Nat) : CheckResult :=
  if c < L then ⟨true, (L : Int) - ((c : Int) + 1)⟩ else ⟨false, 0⟩

namespace GenerateApi

/-- The invalid-body condition the spec enumerates for `POST /api/generate`:
`type` missing or not in `{image, video}`, or `prompt` missing, empty, or
longer than 1000 characters. -/
def invalidBody (type? prompt? : Option String) : Bool :=
  match type?, prompt? with
  | none, _ => true
  | _, none => true
  | some t, some p =>
      !(decide (t = "image") || decide (t = "video")) || decide (p = "") ||
        decide (p.length > 1000)

/-- A store with five pending tasks, i.e. at the concurrency cap. -/
def fullStore : TaskStore :=
  [("a", ⟨"a", .video, .pending, 0, none, none, 0⟩),
   ("b", ⟨"b", .video, .pending, 0, none, none, 0⟩),
   ("c", ⟨"c", .video, .pending, 0, none, none, 0⟩),
   ("d", ⟨"d", .video, .pending, 0, none, none, 0⟩),
   ("e", ⟨"e", .video, .pending, 0, none, none, 0⟩)]

end GenerateApi

namespace GenerateVideoApi

/-- Formalization of the status-write order the claim asserts, on the raw
status strings held by the `videoTasks` store: a write may keep the status
or move it forward along `pending → processing → {completed, failed}`. -/
def specForwardWrite (old new : String) : Prop :=
  old = new ∨
    (old = "pending" ∧ (new = "processing" ∨ new = "completed" ∨ new = "failed")) ∨
    (old = "processing" ∧ (new = "completed" ∨ new = "failed"))

instance (old new : String) : Decidable (specForwardWrite old new) := by
  unfold specForwardWrite
  infer_instance

end GenerateVideoApi

namespace GenerateApi

/-- A processing task as stored right after an admitted `POST`. -/
def procRec : Task := ⟨"t1", .video, .processing, 0, none, none, 0⟩

/-- The same task after its fetch resolved successfully. -/
def doneRec : Task := ⟨"t1", .video, .completed, 100, some "u", none, 0⟩

/-- State after one admitted `POST` (fetch still pending). -/
def s1 : Sys := ⟨[("t1", procRec)], [("t1", .video)], []⟩

/-- State after that fetch resolved: task completed, deletion scheduled. -/
def s2 : Sys := ⟨[("t1", doneRec)], [], [("t1", 3600000)]⟩

end GenerateApi

/-! ## Theorems -/

theorem getKey_setKey_self {α : Type} (s : List (String × α)) (k : String) (v : α) :
    getKey (setKey s k v) k = some v := by
  induction s with
  | nil => simp [setKey, getKey]
  | cons hd tl ih =>
      by_cases h : hd.1 = k
      · simp [setKey, h, getKey]
      · simp [setKey, h, getKey, ih]

theorem getKey_setKey_ne {α : Type} (s : List (String × α)) (k k' : String) (v : α)
    (h : k ≠ k') : getKey (setKey s k v) k' = getKey s k' := by
  induction s with
  | nil => simp [setKey, getKey, h]
  | cons hd tl ih =>
      obtain ⟨a, b⟩ := hd
      by_cases hh : a = k
      · subst hh
        simp [setKey, getKey, h]
      · by_cases hk' : a = k'
        · subst hk'
          simp [setKey, hh, getKey]
        · simp [setKey, hh, getKey, hk', ih]

theorem getKey_delKey_self {α : Type} (s : List (String × α)) (k : String) :
    getKey (delKey s k) k = none := by
  induction s with
  | nil => simp [delKey, getKey]
  | cons hd tl ih =>
      obtain ⟨a, b⟩ := hd
      by_cases h : a = k
      · simpa [delKey, h] using ih
      · simpa [delKey, getKey, h] using ih

theorem getKey_delKey_ne {α : Type} (s : List (String × α)) (k k' : String)
    (h : k ≠ k') : getKey (delKey s k) k' = getKey s k' := by
  induction s with
  | nil => simp [delKey, getKey]
  | cons hd tl ih =>
      obtain ⟨a, b⟩ := hd
      by_cases hh : a = k
      · subst hh
        simp [delKey, getKey, h, ih]
      · by_cases hk' : a = k'
        · subst hk'
          simp [delKey, hh, getKey]
        · simp [delKey, hh, getKey, hk', ih]

theorem setKey_setKey {α : Type} (s : List (String × α)) (k : String) (v w : α) :
    setKey (setKey s k v) k w = setKey s k w := by
  induction s with
  | nil => simp [setKey]
  | cons hd tl ih =>
      by_cases h : hd.1 = k
      · simp [setKey, h]
      · simp [setKey, h, ih]

namespace GenerateApi

/-- Characterization of `POST`: it always installs the rate-limiter state
left by `check`; it either rejects (store untouched, nothing spawned) or
admits the request, in which case the stored record, the spawned job and
the scheduled cleanup are determined by whether `RUNWAY_API_KEY` is set. -/
theorem POST_spec (rl : RateLimit) (ip : String) (now : Nat)
    (type? prompt? : Option String) (tasks : TaskStore) (taskId : String)
    (apiKey : Option String) :
    (POST rl ip now type? prompt? tasks taskId apiKey).rl = (rl.check ip now).2 ∧
    (((POST rl ip now type? prompt? tasks taskId apiKey).tasks = tasks ∧
      (POST rl ip now type? prompt? tasks taskId apiKey).job = none ∧
      (POST rl ip now type? prompt? tasks taskId apiKey).cleanup = none ∧
      ∀ tid, (POST rl ip now type? prompt? tasks taskId apiKey).res ≠ .created tid) ∨
     ((POST rl ip now type? prompt? tasks taskId apiKey).res = .created taskId ∧
      (activeTasks tasks).length < MAX_CONCURRENT_TASKS ∧
      ((apiKey = none ∧
        (POST rl ip now type? prompt? tasks taskId apiKey).tasks =
          setKey tasks taskId
            ⟨taskId, parseType (type?.getD ""), .failed, 0, none,
             some "RUNWAY_API_KEY is not configured", now⟩ ∧
        (POST rl ip now type? prompt? tasks taskId apiKey).job = none ∧
        (POST rl ip now type? prompt? tasks taskId apiKey).cleanup =
          some (taskId, 900000)) ∨
       (apiKey ≠ none ∧
        (POST rl ip now type? prompt? tasks taskId apiKey).tasks =
          setKey tasks taskId
            ⟨taskId, parseType (type?.getD ""), .processing, 0, none, none, now⟩ ∧
        (POST rl ip now type? prompt? tasks taskId apiKey).job =
          some (taskId, parseType (type?.getD "")) ∧
        (POST rl ip now type? prompt? tasks taskId apiKey).cleanup = none)))) := by
  unfold POST
  by_cases h1 : (rl.check ip now).1.success
  · by_cases h2 : (falsyStr type? || falsyStr prompt?) = true
    · simp [h1, h2]
    · by_cases h3 : ((type?.getD "") = "image" || (type?.getD "") = "video") = true
      · by_cases h4 : (prompt?.getD "").length > MAX_PROMPT_LENGTH
        · simp [h1, h2, h3, h4]
        · by_cases h5 : (activeTasks tasks).length ≥ MAX_CONCURRENT_TASKS
          · simp [h1, h2, h3, h4, h5]
          · cases apiKey with
            | none =>
                refine ⟨?_, Or.inr ⟨?_, by omega, Or.inl ⟨rfl, ?_, ?_, ?_⟩⟩⟩ <;>
                  simp [h1, h2, h3, h4, h5, processTaskSync, getKey_setKey_self,
                        newTask, setKey_setKey]
            | some k =>
                refine ⟨?_, Or.inr ⟨?_, by omega, Or.inr ⟨by simp, ?_, ?_, ?_⟩⟩⟩ <;>
                  simp [h1, h2, h3, h4, h5, processTaskSync, getKey_setKey_self,
                        newTask, setKey_setKey]
      · simp [h1, h2, h3]
  · simp [h1]

theorem nodup_fst_eq {β : Type} {l : List (String × β)}
    (h : (l.map Prod.fst).Nodup) {a : String} {b c : β}
    (hb : (a, b) ∈ l) (hc : (a, c) ∈ l) : b = c := by
  induction l with
  | nil => cases hb
  | cons hd tl ih =>
      obtain ⟨x, y⟩ := hd
      simp only [List.map_cons, List.nodup_cons] at h
      rcases List.mem_cons.mp hb with hb1 | hb1
      · rcases List.mem_cons.mp hc with hc1 | hc1
        · rw [Prod.mk.injEq] at hb1 hc1
          rw [hb1.2, hc1.2]
        · exfalso
          apply h.1
          rw [Prod.mk.injEq] at hb1
          exact hb1.1 ▸ List.mem_map.mpr ⟨(a, c), hc1, rfl⟩
      · rcases List.mem_cons.mp hc with hc1 | hc1
        · exfalso
          apply h.1
          rw [Prod.mk.injEq] at hc1
          exact hc1.1 ▸ List.mem_map.mpr ⟨(a, b), hb1, rfl⟩
        · exact ih h.2 hb1 hc1

theorem inv_init : Inv ⟨[], [], []⟩ := by
  refine ⟨?_, ?_, ?_, ?_, ?_, ?_⟩ <;>
    simp [fieldsOk, jobsOk, cleanupsOk, termSched, jobsNodup, cleanupsNodup, getKey]

theorem inv_post (apiKey : Option String) (s : Sys) (rl : RateLimit) (ip : String)
    (now : Nat) (type? prompt? : Option String) (taskId : String)
    (hfresh : getKey s.tasks taskId = none)
    (hcreated : (POST rl ip now type? prompt? s.tasks taskId apiKey).res =
      .created taskId)
    (hinv : Inv s) :
    Inv ⟨(POST rl ip now type? prompt? s.tasks taskId apiKey).tasks,
         s.jobs ++ (POST rl ip now type? prompt? s.tasks taskId apiKey).job.toList,
         s.cleanups ++
           (POST rl ip now type? prompt? s.tasks taskId apiKey).cleanup.toList⟩ := by
  obtain ⟨hf, hj, hc, ht, hjn, hcn⟩ := hinv
  obtain ⟨-, hcase⟩ := POST_spec rl ip now type? prompt? s.tasks taskId apiKey
  rcases hcase with ⟨-, -, -, hne⟩ | ⟨-, -, hbr⟩
  · exact absurd hcreated (hne taskId)
  have record_ne : ∀ id (t : Task), getKey s.tasks id = some t → taskId ≠ id := by
    intro id t hgt h
    rw [h, hgt] at hfresh
    cases hfresh
  rcases hbr with ⟨-, htasks, hjob, hcu⟩ | ⟨-, htasks, hjob, hcu⟩
  · -- RUNWAY_API_KEY missing: the admitted task fails synchronously
    rw [htasks, hjob, hcu]
    simp only [Option.toList_some, Option.toList_none, List.append_nil]
    refine ⟨?_, ?_, ?_, ?_, ?_, ?_⟩
    · intro id t hid
      by_cases hidt : taskId = id
      · subst hidt
        rw [getKey_setKey_self] at hid
        obtain rfl := Option.some.inj hid
        exact ⟨fun h => by simp at h, fun _ => rfl⟩
      · rw [getKey_setKey_ne _ _ _ _ hidt] at hid
        exact hf id t hid
    · intro id ty' hmem
      obtain ⟨t, hgt, h1, h2, h3⟩ := hj id ty' hmem
      have hne' := record_ne id t hgt
      refine ⟨t, ?_, h1, h2, h3⟩
      rw [getKey_setKey_ne _ _ _ _ hne']
      exact hgt
    · intro id d hmem
      rcases List.mem_append.mp hmem with hold | hnew
      · obtain ⟨t, hgt, hterm⟩ := hc id d hold
        have hne' := record_ne id t hgt
        refine ⟨t, ?_, hterm⟩
        rw [getKey_setKey_ne _ _ _ _ hne']
        exact hgt
      · rw [List.mem_singleton, Prod.mk.injEq] at hnew
        obtain ⟨rfl, rfl⟩ := hnew
        exact ⟨_, getKey_setKey_self _ _ _, Or.inr ⟨rfl, rfl⟩⟩
    · intro id t hid
      by_cases hidt : taskId = id
      · subst hidt
        rw [getKey_setKey_self] at hid
        obtain rfl := Option.some.inj hid
        refine ⟨fun h => absurd h (by simp), fun _ => ?_⟩
        exact List.mem_append_right _ (List.mem_singleton.mpr rfl)
      · rw [getKey_setKey_ne _ _ _ _ hidt] at hid
        obtain ⟨h1, h2⟩ := ht id t hid
        exact ⟨fun h => List.mem_append_left _ (h1 h),
               fun h => List.mem_append_left _ (h2 h)⟩
    · exact hjn
    · simp only [cleanupsNodup, List.map_append, List.map_cons, List.map_nil]
      rw [List.nodup_append]
      refine ⟨hcn, by simp, ?_⟩
      intro a ha hb
      rw [List.mem_singleton] at hb
      subst hb
      obtain ⟨⟨id', d'⟩, hmem, heq⟩ := List.mem_map.mp ha
      obtain ⟨t, hgt, -⟩ := hc id' d' hmem
      exact record_ne id' t hgt heq.symm
  · -- RUNWAY_API_KEY present: the admitted task is processing, fetch pending
    rw [htasks, hjob, hcu]
    simp only [Option.toList_some, Option.toList_none, List.append_nil]
    refine ⟨?_, ?_, ?_, ?_, ?_, ?_⟩
    · intro id t hid
      by_cases hidt : taskId = id
      · subst hidt
        rw [getKey_setKey_self] at hid
        obtain rfl := Option.some.inj hid
        exact ⟨fun h => by simp at h, fun h => by simp at h⟩
      · rw [getKey_setKey_ne _ _ _ _ hidt] at hid
        exact hf id t hid
    · intro id ty' hmem
      rcases List.mem_append.mp hmem with hold | hnew
      · obtain ⟨t, hgt, h1, h2, h3⟩ := hj id ty' hold
        have hne' := record_ne id t hgt
        refine ⟨t, ?_, h1, h2, h3⟩
        rw [getKey_setKey_ne _ _ _ _ hne']
        exact hgt
      · rw [List.mem_singleton, Prod.mk.injEq] at hnew
        obtain ⟨rfl, rfl⟩ := hnew
        exact ⟨_, getKey_setKey_self _ _ _, rfl, rfl, rfl⟩
    · intro id d hmem
      obtain ⟨t, hgt, hterm⟩ := hc id d hmem
      have hne' := record_ne id t hgt
      refine ⟨t, ?_, hterm⟩
      rw [getKey_setKey_ne _ _ _ _ hne']
      exact hgt
    · intro id t hid
      by_cases hidt : taskId = id
      · subst hidt
        rw [getKey_setKey_self] at hid
        obtain rfl := Option.some.inj hid
        exact ⟨fun h => absurd h (by simp), fun h => absurd h (by simp)⟩
      · rw [getKey_setKey_ne _ _ _ _ hidt] at hid
        exact ht id t hid
    · simp only [jobsNodup, List.map_append, List.map_cons, List.map_nil]
      rw [List.nodup_append]
      refine ⟨hjn, by simp, ?_⟩
      intro a ha hb
      rw [List.mem_singleton] at hb
      subst hb
      obtain ⟨⟨id', ty'⟩, hmem, heq⟩ := List.mem_map.mp ha
      obtain ⟨t, hgt, -⟩ := hj id' ty' hmem
      exact record_ne id' t hgt heq.symm
    · exact hcn

theorem processTaskResume_ok (tasks : TaskStore) (taskId : String) (ty : TaskType)
    (resp : FetchResponse) (t : Task) (url : String)
    (hg : getKey tasks taskId = some t) (hrw : runwayResult ty resp = .ok url) :
    processTaskResume tasks taskId ty resp =
      (setKey tasks taskId
        { t with status := .completed, progress := 100, result := some url },
       3600000) := by
  unfold processTaskResume
  rw [hg, hrw]

theorem processTaskResume_error (tasks : TaskStore) (taskId : String) (ty : TaskType)
    (resp : FetchResponse) (t : Task) (msg : String)
    (hg : getKey tasks taskId = some t) (hrw : runwayResult ty resp = .error msg) :
    processTaskResume tasks taskId ty resp =
      (setKey tasks taskId { t with status := .failed, error := some msg },
       900000) := by
  unfold processTaskResume
  rw [hg, hrw]

theorem inv_finish (s : Sys) (taskId : String) (ty : TaskType) (resp : FetchResponse)
    (hjob : (taskId, ty) ∈ s.jobs) (hinv : Inv s) :
    Inv ⟨(processTaskResume s.tasks taskId ty resp).1,
         s.jobs.erase (taskId, ty),
         s.cleanups ++ [(taskId, (processTaskResume s.tasks taskId ty resp).2)]⟩ := by
  obtain ⟨hf, hj, hc, ht, hjn, hcn⟩ := hinv
  obtain ⟨t0, hg0, hst0, hr0, he0⟩ := hj taskId ty hjob
  have hjobs_ne : ∀ id ty', (id, ty') ∈ s.jobs.erase (taskId, ty) →
      (id, ty') ∈ s.jobs ∧ taskId ≠ id := by
    intro id ty' hmem
    have hmem' := List.mem_of_mem_erase hmem
    refine ⟨hmem', ?_⟩
    intro h
    subst h
    have : ty' = ty := nodup_fst_eq hjn hmem' hjob
    subst this
    have hnd : s.jobs.Nodup := List.Nodup.of_map _ hjn
    exact ((hnd.mem_erase_iff).mp hmem).1 rfl
  have hclean_ne : ∀ id d, (id, d) ∈ s.cleanups → taskId ≠ id := by
    intro id d hmem h
    subst h
    obtain ⟨t', hgt', hterm'⟩ := hc taskId d hmem
    rw [hg0] at hgt'
    obtain rfl := Option.some.inj hgt'
    rcases hterm' with ⟨h1, -⟩ | ⟨h1, -⟩ <;> rw [hst0] at h1 <;> cases h1
  have main : ∀ (rec : Task) (d : Nat),
      processTaskResume s.tasks taskId ty resp = (setKey s.tasks taskId rec, d) →
      (rec.result.isSome = true → rec.status = .completed) →
      (rec.error.isSome = true → rec.status = .failed) →
      ((rec.status = .completed ∧ d = 3600000) ∨ (rec.status = .failed ∧ d = 900000)) →
      Inv ⟨(processTaskResume s.tasks taskId ty resp).1,
           s.jobs.erase (taskId, ty),
           s.cleanups ++ [(taskId, (processTaskResume s.tasks taskId ty resp).2)]⟩ := by
    intro rec d heq hres herr hterm
    rw [heq]
    refine ⟨?_, ?_, ?_, ?_, ?_, ?_⟩
    · intro id t hid
      by_cases hidt : taskId = id
      · subst hidt
        rw [getKey_setKey_self] at hid
        obtain rfl := Option.some.inj hid
        exact ⟨hres, herr⟩
      · rw [getKey_setKey_ne _ _ _ _ hidt] at hid
        exact hf id t hid
    · intro id ty' hmem
      obtain ⟨hmem', hne'⟩ := hjobs_ne id ty' hmem
      obtain ⟨t, hgt, h1, h2, h3⟩ := hj id ty' hmem'
      refine ⟨t, ?_, h1, h2, h3⟩
      rw [getKey_setKey_ne _ _ _ _ hne']
      exact hgt
    · intro id d' hmem
      rcases List.mem_append.mp hmem with hold | hnew
      · obtain ⟨t, hgt, hterm'⟩ := hc id d' hold
        have hne' := hclean_ne id d' hold
        refine ⟨t, ?_, hterm'⟩
        rw [getKey_setKey_ne _ _ _ _ hne']
        exact hgt
      · rw [List.mem_singleton, Prod.mk.injEq] at hnew
        obtain ⟨rfl, rfl⟩ := hnew
        exact ⟨rec, getKey_setKey_self _ _ _, hterm⟩
    · intro id t hid
      by_cases hidt : taskId = id
      · subst hidt
        rw [getKey_setKey_self] at hid
        obtain rfl := Option.some.inj hid
        constructor
        · intro h
          rcases hterm with ⟨-, hd⟩ | ⟨h1, -⟩
          · rw [hd]
            exact List.mem_append_right _ (List.mem_singleton.mpr rfl)
          · rw [h1] at h
            cases h
        · intro h
          rcases hterm with ⟨h1, -⟩ | ⟨-, hd⟩
          · rw [h1] at h
            cases h
          · rw [hd]
            exact List.mem_append_right _ (List.mem_singleton.mpr rfl)
      · rw [getKey_setKey_ne _ _ _ _ hidt] at hid
        obtain ⟨h1, h2⟩ := ht id t hid
        exact ⟨fun h => List.mem_append_left _ (h1 h),
               fun h => List.mem_append_left _ (h2 h)⟩
    · exact List.Nodup.sublist
        (List.Sublist.map _ (List.erase_sublist _ _)) hjn
    · simp only [cleanupsNodup, List.map_append, List.map_cons, List.map_nil]
      rw [List.nodup_append]
      refine ⟨hcn, by simp, ?_⟩
      intro a ha hb
      rw [List.mem_singleton] at hb
      subst hb
      obtain ⟨⟨id', d'⟩, hmem, heq'⟩ := List.mem_map.mp ha
      exact hclean_ne id' d' hmem heq'.symm
  cases hrw : runwayResult ty resp with
  | ok url =>
      exact main _ _ (processTaskResume_ok s.tasks taskId ty resp t0 url hg0 hrw)
        (fun _ => rfl) (fun h => by rw [he0] at h; cases h)
        (Or.inl ⟨rfl, rfl⟩)
  | error msg =>
      exact main _ _ (processTaskResume_error s.tasks taskId ty resp t0 msg hg0 hrw)
        (fun h => by rw [hr0] at h; cases h) (fun _ => rfl)
        (Or.inr ⟨rfl, rfl⟩)

theorem inv_expire (s : Sys) (taskId : String) (d : Nat)
    (hcu : (taskId, d) ∈ s.cleanups) (hinv : Inv s) :
    Inv ⟨delKey s.tasks taskId, s.jobs, s.cleanups.erase (taskId, d)⟩ := by
  obtain ⟨hf, hj, hc, ht, hjn, hcn⟩ := hinv
  obtain ⟨t1, hg1, hterm1⟩ := hc taskId d hcu
  refine ⟨?_, ?_, ?_, ?_, ?_, ?_⟩
  · intro id t hid
    by_cases hidt : taskId = id
    · subst hidt
      rw [getKey_delKey_self] at hid
      cases hid
    · rw [getKey_delKey_ne _ _ _ hidt] at hid
      exact hf id t hid
  · intro id ty' hmem
    obtain ⟨t, hgt, h1, h2, h3⟩ := hj id ty' hmem
    have hne' : taskId ≠ id := by
      intro h
      subst h
      rw [hg1] at hgt
      obtain rfl := Option.some.inj hgt
      rcases hterm1 with ⟨hs, -⟩ | ⟨hs, -⟩ <;> rw [h1] at hs <;> cases hs
    refine ⟨t, ?_, h1, h2, h3⟩
    rw [getKey_delKey_ne _ _ _ hne']
    exact hgt
  · intro id d' hmem
    have hmem' := List.mem_of_mem_erase hmem
    have hne' : taskId ≠ id := by
      intro h
      subst h
      have : d' = d := nodup_fst_eq hcn hmem' hcu
      subst this
      have hnd : s.cleanups.Nodup := List.Nodup.of_map _ hcn
      exact ((hnd.mem_erase_iff).mp hmem).1 rfl
    obtain ⟨t, hgt, hterm'⟩ := hc id d' hmem'
    refine ⟨t, ?_, hterm'⟩
    rw [getKey_delKey_ne _ _ _ hne']
    exact hgt
  · intro id t hid
    by_cases hidt : taskId = id
    · subst hidt
      rw [getKey_delKey_self] at hid
      cases hid
    · rw [getKey_delKey_ne _ _ _ hidt] at hid
      obtain ⟨h1, h2⟩ := ht id t hid
      have hmem_of : ∀ D : Nat, (id, D) ∈ s.cleanups →
          (id, D) ∈ s.cleanups.erase (taskId, d) := by
        intro D hmem
        refine (List.mem_erase_of_ne ?_).mpr hmem
        intro h
        exact hidt (congrArg Prod.fst h).symm
      exact ⟨fun h => hmem_of _ (h1 h), fun h => hmem_of _ (h2 h)⟩
  · exact hjn
  · exact List.Nodup.sublist (List.Sublist.map _ (List.erase_sublist _ _)) hcn

/-- Every step preserves the invariant. -/
theorem inv_step {apiKey : Option String} {s s' : Sys}
    (hinv : Inv s) (hst : Step apiKey s s') : Inv s' := by
  cases hst with
  | post rl ip now type? prompt? taskId hfresh hcreated =>
      exact inv_post apiKey s rl ip now type? prompt? taskId hfresh hcreated hinv
  | finish taskId ty resp hjob => exact inv_finish s taskId ty resp hjob hinv
  | expire taskId d hcu => exact inv_expire s taskId d hcu hinv

/-- Every reachable state satisfies the invariant. -/
theorem reachable_inv {apiKey : Option String} {s : Sys}
    (hr : Reachable apiKey s) : Inv s := by
  induction hr with
  | init => exact inv_init
  | step hr hst ih => exact inv_step ih hst

theorem specForward_terminal {a b : TaskStatus} (h : specForward a b)
    (hterm : a = .completed ∨ a = .failed) : b = a := by
  rcases h with h | ⟨h1, -⟩ | ⟨h1, -⟩
  · exact h.symm
  · rcases hterm with h2 | h2 <;> rw [h2] at h1 <;> cases h1
  · rcases hterm with h2 | h2 <;> rw [h2] at h1 <;> cases h1

/-- Any step moves the status of any surviving record forward along the
spec's order. -/
theorem step_forward {apiKey : Option String} {s s' : Sys}
    (hinv : Inv s) (hst : Step apiKey s s') (id : String) (t t' : Task)
    (ht : getKey s.tasks id = some t) (ht' : getKey s'.tasks id = some t') :
    specForward t.status t'.status := by
  cases hst with
  | post rl ip now type? prompt? taskId hfresh hcreated =>
      obtain ⟨-, hcase⟩ := POST_spec rl ip now type? prompt? s.tasks taskId apiKey
      rcases hcase with ⟨-, -, -, hne⟩ | ⟨-, -, hbr⟩
      · exact absurd hcreated (hne taskId)
      have hid : taskId ≠ id := by
        intro h
        rw [h, ht] at hfresh
        cases hfresh
      have htasks' : getKey (POST rl ip now type? prompt? s.tasks taskId apiKey).tasks
          id = getKey s.tasks id := by
        rcases hbr with ⟨-, htasks, -, -⟩ | ⟨-, htasks, -, -⟩ <;>
          rw [htasks, getKey_setKey_ne _ _ _ _ hid]
      rw [htasks', ht] at ht'
      obtain rfl := Option.some.inj ht'
      exact Or.inl rfl
  | finish taskId ty resp hjob =>
      obtain ⟨t0, hg0, hst0, -, -⟩ := hinv.2.1 taskId ty hjob
      by_cases hid : taskId = id
      · subst hid
        rw [hg0] at ht
        obtain rfl := Option.some.inj ht
        cases hrw : runwayResult ty resp with
        | ok url =>
            rw [processTaskResume_ok s.tasks taskId ty resp t0 url hg0 hrw] at ht'
            rw [getKey_setKey_self] at ht'
            obtain rfl := Option.some.inj ht'
            exact Or.inr (Or.inr ⟨hst0, Or.inl rfl⟩)
        | error msg =>
            rw [processTaskResume_error s.tasks taskId ty resp t0 msg hg0 hrw] at ht'
            rw [getKey_setKey_self] at ht'
            obtain rfl := Option.some.inj ht'
            exact Or.inr (Or.inr ⟨hst0, Or.inr rfl⟩)
      · have htasks' : getKey (processTaskResume s.tasks taskId ty resp).1 id =
            getKey s.tasks id := by
          cases hrw : runwayResult ty resp with
          | ok url =>
              rw [processTaskResume_ok s.tasks taskId ty resp t0 url hg0 hrw]
              exact getKey_setKey_ne _ _ _ _ hid
          | error msg =>
              rw [processTaskResume_error s.tasks taskId ty resp t0 msg hg0 hrw]
              exact getKey_setKey_ne _ _ _ _ hid
        rw [htasks', ht] at ht'
        obtain rfl := Option.some.inj ht'
        exact Or.inl rfl
  | expire taskId d hcu =>
      by_cases hid : taskId = id
      · subst hid
        rw [getKey_delKey_self] at ht'
        cases ht'
      · rw [getKey_delKey_ne _ _ _ hid, ht] at ht'
        obtain rfl := Option.some.inj ht'
        exact Or.inl rfl

end GenerateApi

theorem check_fresh (rl : RateLimit) (key : String) (now : Nat)
    (hg : getKey rl.store key = none) :
    rl.check key now =
      (⟨true, (rl.limit : Int) - 1⟩,
       { rl with store := setKey rl.store key ⟨1, now + rl.windowMs⟩ }) := by
  unfold RateLimit.check
  rw [hg]

theorem check_expired (rl : RateLimit) (key : String) (now : Nat)
    (e : RateLimitEntry) (hg : getKey rl.store key = some e)
    (hx : e.resetTime < now) :
    rl.check key now =
      (⟨true, (rl.limit : Int) - 1⟩,
       { rl with store := setKey (delKey rl.store key) key ⟨1, now + rl.windowMs⟩ }) := by
  unfold RateLimit.check
  rw [hg]
  dsimp only
  rw [if_pos hx]

theorem check_limited (rl : RateLimit) (key : String) (now : Nat)
    (e : RateLimitEntry) (hg : getKey rl.store key = some e)
    (hn : now ≤ e.resetTime) (hl : rl.limit ≤ e.count) :
    rl.check key now = (⟨false, 0⟩, rl) := by
  unfold RateLimit.check
  rw [hg]
  dsimp only
  rw [if_neg (by omega), if_pos (by omega)]

theorem check_increment (rl : RateLimit) (key : String) (now : Nat)
    (e : RateLimitEntry) (hg : getKey rl.store key = some e)
    (hn : now ≤ e.resetTime) (hl : e.count < rl.limit) :
    rl.check key now =
      (⟨true, (rl.limit : Int) - ((e.count : Int) + 1)⟩,
       { rl with store := setKey rl.store key ⟨e.count + 1, e.resetTime⟩ }) := by
  unfold RateLimit.check
  rw [hg]
  dsimp only
  rw [if_neg (by omega), if_neg (by omega)]

theorem runChecks_window (key : String) (R : Nat) (ts : List Nat) :
    ∀ (rl : RateLimit) (c : Nat),
      (∀ tt ∈ ts, tt ≤ R) → 1 ≤ c → c ≤ rl.limit →
      getKey rl.store key = some ⟨c, R⟩ →
      (runChecks rl key ts).1 =
        (List.range ts.length).map (fun i => resultAt rl.limit (c + i)) ∧
      getKey (runChecks rl key ts).2.store key =
        some ⟨min (c + ts.length) rl.limit, R⟩ ∧
      (runChecks rl key ts).2.limit = rl.limit ∧
      (runChecks rl key ts).2.windowMs = rl.windowMs := by
  induction ts with
  | nil =>
      intro rl c hts hc1 hcl hg
      refine ⟨by simp [runChecks], ?_, rfl, rfl⟩
      simpa [runChecks, Nat.min_eq_left hcl] using hg
  | cons tt ts ih =>
      intro rl c hts hc1 hcl hg
      have htt : tt ≤ R := hts tt (List.mem_cons_self _ _)
      have hts' : ∀ x ∈ ts, x ≤ R := fun x hx => hts x (List.mem_cons_of_mem _ hx)
      by_cases hlim : c < rl.limit
      · have hcheck := check_increment rl key tt ⟨c, R⟩ hg htt hlim
        dsimp only at hcheck
        have hg' : getKey (setKey rl.store key ⟨c + 1, R⟩) key =
            some ⟨c + 1, R⟩ := getKey_setKey_self _ _ _
        obtain ⟨ih1, ih2, ih3, ih4⟩ :=
          ih { rl with store := setKey rl.store key ⟨c + 1, R⟩ } (c + 1)
            hts' (by omega) (by dsimp only; omega) hg'
        dsimp only at ih1 ih2 ih3 ih4
        refine ⟨?_, ?_, ?_, ?_⟩
        · simp only [runChecks, hcheck, List.length_cons]
          rw [ih1, List.range_succ_eq_map, List.map_cons, List.map_map]
          congr 1
          · simp [resultAt, hlim]
          · refine List.map_congr_left ?_
            intro i _
            simp only [Function.comp]
            exact congrArg (resultAt rl.limit) (by omega)
        · simp only [runChecks, hcheck, List.length_cons]
          rw [ih2]
          congr 2
          omega
        · simp only [runChecks, hcheck]
          exact ih3
        · simp only [runChecks, hcheck]
          exact ih4
      · have hcheck := check_limited rl key tt ⟨c, R⟩ hg htt (by dsimp only; omega)
        obtain ⟨ih1, ih2, ih3, ih4⟩ := ih rl c hts' hc1 hcl hg
        refine ⟨?_, ?_, ?_, ?_⟩
        · simp only [runChecks, hcheck, List.length_cons]
          rw [ih1, List.range_succ_eq_map, List.map_cons, List.map_map]
          congr 1
          · simp [resultAt, hlim]
          · refine List.map_congr_left ?_
            intro i _
            simp only [Function.comp]
            have h1 : ¬ c + (i + 1) < rl.limit := by omega
            have h2 : ¬ c + i < rl.limit := by omega
            simp [resultAt, h1, h2]
        · simp only [runChecks, hcheck, List.length_cons]
          rw [ih2]
          congr 2
          omega
        · simp only [runChecks, hcheck]
          exact ih3
        · simp only [runChecks, hcheck]
          exact ih4

namespace GenerateApi

theorem length_filter_setKey {α : Type} (p : α → Bool) :
    ∀ (l : List (String × α)) (k : String) (v : α),
      (((setKey l k v).map Prod.snd).filter p).length ≤
        (((l.map Prod.snd).filter p).length) + 1 := by
  intro l
  induction l with
  | nil =>
      intro k v
      cases hv : p v <;> simp [setKey, hv]
  | cons hd tl ih =>
      intro k v
      obtain ⟨a, b⟩ := hd
      by_cases h : a = k
      · cases hv : p v <;> cases hb : p b <;>
          simp [setKey, h, hv, hb] <;> omega
      · have := ih k v
        cases hb : p b <;> simp [setKey, h, hb] <;> omega

theorem activeTasks_setKey_le (tasks : TaskStore) (k : String) (v : Task) :
    (activeTasks (setKey tasks k v)).length ≤ (activeTasks tasks).length + 1 := by
  unfold activeTasks
  exact length_filter_setKey _ tasks k v

theorem POST_active_le (rl : RateLimit) (ip : String) (now : Nat)
    (type? prompt? : Option String) (tasks : TaskStore) (taskId : String)
    (apiKey : Option String) :
    (activeTasks (POST rl ip now type? prompt? tasks taskId apiKey).tasks).length ≤
      max (activeTasks tasks).length MAX_CONCURRENT_TASKS := by
  obtain ⟨-, hcase⟩ := POST_spec rl ip now type? prompt? tasks taskId apiKey
  rcases hcase with ⟨heq, -, -, -⟩ | ⟨-, hcap, hbr⟩
  · rw [heq]
    exact le_max_left _ _
  · rcases hbr with ⟨-, htasks, -, -⟩ | ⟨-, htasks, -, -⟩
    · rw [htasks]
      have hb := activeTasks_setKey_le tasks taskId
        ⟨taskId, parseType (type?.getD ""), .failed, 0, none,
         some "RUNWAY_API_KEY is not configured", now⟩
      omega
    · rw [htasks]
      have hb := activeTasks_setKey_le tasks taskId
        ⟨taskId, parseType (type?.getD ""), .processing, 0, none, none, now⟩
      omega

/-- C2, counterexample: with five active tasks (at the cap) a request with an
invalid `type` is answered with the 400 validation error, not with the
claimed 429 capacity error, because validation runs before the capacity
check. -/
theorem C2_counterexample :
    (activeTasks fullStore).length ≥ MAX_CONCURRENT_TASKS ∧
    (POST ⟨[], 10, 60000⟩ "ip" 0 (some "bogus") (some "p") fullStore "f"
      (some "k")).res = .invalidType ∧
    (POST ⟨[], 10, 60000⟩ "ip" 0 (some "bogus") (some "p") fullStore "f"
      (some "k")).res.httpStatus = 400 ∧
    (POST ⟨[], 10, 60000⟩ "ip" 0 (some "bogus") (some "p") fullStore "f"
      (some "k")).res ≠ .capacityError := by
  refine ⟨by decide, rfl, rfl, by decide⟩

/-- C2, amended: when the store already holds at least `MAX_CONCURRENT_TASKS`
pending-or-processing tasks, every request that passes the rate limiter and
input validation is rejected with the 429 capacity error and the store is
unchanged; moreover no execution of `POST` whatsoever pushes the number of
pending-or-processing tasks above the cap (the count after `POST` never
exceeds `max` of the prior count and the cap). -/
theorem C2_capacity (rl : RateLimit) (ip : String) (now : Nat)
    (type? prompt? : Option String) (tasks : TaskStore) (taskId : String)
    (apiKey : Option String)
    (hcap : (activeTasks tasks).length ≥ MAX_CONCURRENT_TASKS)
    (hrl : (rl.check ip now).1.success = true)
    (hbody : invalidBody type? prompt? = false) :
    (POST rl ip now type? prompt? tasks taskId apiKey).res = .capacityError ∧
    (POST rl ip now type? prompt? tasks taskId apiKey).res.httpStatus = 429 ∧
    (POST rl ip now type? prompt? tasks taskId apiKey).tasks = tasks ∧
    ∀ (rl' : RateLimit) (ip' : String) (now' : Nat)
      (ty' p' : Option String) (tasks' : TaskStore) (tid' : String)
      (key' : Option String),
      (activeTasks (POST rl' ip' now' ty' p' tasks' tid' key').tasks).length ≤
        max (activeTasks tasks').length MAX_CONCURRENT_TASKS := by
  cases type? with
  | none => simp [invalidBody] at hbody
  | some t =>
      cases prompt? with
      | none => simp [invalidBody] at hbody
      | some p =>
          simp only [invalidBody, Bool.or_eq_false_iff, Bool.not_eq_false',
            Bool.or_eq_true, decide_eq_true_eq, decide_eq_false_iff_not] at hbody
          obtain ⟨⟨htv, hp0⟩, hlen⟩ := hbody
          have hmain : (POST rl ip now (some t) (some p) tasks taskId apiKey).res =
              .capacityError ∧
              (POST rl ip now (some t) (some p) tasks taskId apiKey).tasks =
                tasks := by
            rcases htv with rfl | rfl <;>
              simp [POST, hrl, falsyStr, hp0, hcap, MAX_PROMPT_LENGTH, hlen]
          refine ⟨hmain.1, ?_, hmain.2, ?_⟩
          · rw [hmain.1]
            rfl
          · intro rl' ip' now' ty' p' tasks' tid' key'
            exact POST_active_le rl' ip' now' ty' p' tasks' tid' key'

/-- C2, witness: at the cap, a valid request is rejected as a capacity error
with the store unchanged. -/
theorem C2_capacity_witness :
    (POST ⟨[], 10, 60000⟩ "ip" 0 (some "video") (some "p") fullStore "f"
      (some "k")).res = .capacityError ∧
    (POST ⟨[], 10, 60000⟩ "ip" 0 (some "video") (some "p") fullStore "f"
      (some "k")).res.httpStatus = 429 ∧
    (POST ⟨[], 10, 60000⟩ "ip" 0 (some "video") (some "p") fullStore "f"
      (some "k")).tasks = fullStore := by
  have h := C2_capacity ⟨[], 10, 60000⟩ "ip" 0 (some "video") (some "p")
    fullStore "f" (some "k") (by decide) (by rfl) (by decide)
  exact ⟨h.1, h.2.1, h.2.2.1⟩

/-- C4, counterexample: a request with an invalid `type` that arrives while
its client is rate limited is answered 429 (the rate-limit rejection runs
first), not with the claimed 400 validation error. -/
theorem C4_counterexample :
    invalidBody (some "bogus") (some "p") = true ∧
    (POST ⟨[("ip", ⟨10, 1000⟩)], 10, 60000⟩ "ip" 500 (some "bogus") (some "p")
      [] "id" (some "k")).res = .rateLimited ∧
    (POST ⟨[("ip", ⟨10, 1000⟩)], 10, 60000⟩ "ip" 500 (some "bogus") (some "p")
      [] "id" (some "k")).res.httpStatus = 429 ∧
    (POST ⟨[("ip", ⟨10, 1000⟩)], 10, 60000⟩ "ip" 500 (some "bogus") (some "p")
      [] "id" (some "k")).res.httpStatus ≠ 400 := by
  refine ⟨by decide, rfl, rfl, by decide⟩

/-- C4, amended: an invalid request body (missing or unrecognized `type`;
missing, empty, or over-long `prompt`) never creates a task — the store is
returned unchanged — and, provided the rate-limit check succeeds, the
request is answered with a 400 validation error. -/
theorem C4_validation (rl : RateLimit) (ip : String) (now : Nat)
    (type? prompt? : Option String) (tasks : TaskStore) (taskId : String)
    (apiKey : Option String)
    (hbad : invalidBody type? prompt? = true) :
    (POST rl ip now type? prompt? tasks taskId apiKey).tasks = tasks ∧
    ((rl.check ip now).1.success = true →
      (POST rl ip now type? prompt? tasks taskId apiKey).res.isValidationError =
        true ∧
      (POST rl ip now type? prompt? tasks taskId apiKey).res.httpStatus = 400) := by
  by_cases hrl : (rl.check ip now).1.success
  · cases type? with
    | none =>
        simp [POST, hrl, falsyStr, PostResult.isValidationError,
          PostResult.httpStatus]
    | some t =>
        cases prompt? with
        | none =>
            simp [POST, hrl, falsyStr, PostResult.isValidationError,
              PostResult.httpStatus]
        | some p =>
            by_cases ht0 : t = ""
            · simp [POST, hrl, falsyStr, ht0, PostResult.isValidationError,
                PostResult.httpStatus]
            · by_cases hp0 : p = ""
              · simp [POST, hrl, falsyStr, ht0, hp0,
                  PostResult.isValidationError, PostResult.httpStatus]
              · simp only [invalidBody, Bool.or_eq_true, Bool.not_eq_true',
                  Bool.or_eq_false_iff, decide_eq_true_eq,
                  decide_eq_false_iff_not] at hbad
                rcases hbad with hbad | hlen
                · rcases hbad with ⟨h1, h2⟩ | hp0'
                  · simp [POST, hrl, falsyStr, ht0, hp0, h1, h2,
                      PostResult.isValidationError, PostResult.httpStatus]
                  · exact absurd hp0' hp0
                · by_cases h2 : (decide (t = "image") || decide (t = "video")) = true <;>
                    simp [POST, hrl, falsyStr, ht0, hp0, MAX_PROMPT_LENGTH, hlen,
                      h2, PostResult.isValidationError, PostResult.httpStatus]
  · simp [POST, hrl]

/-- C4, witness: with a fresh rate limiter, an unrecognized `type` yields the
400 validation error and leaves the store empty. -/
theorem C4_validation_witness :
    (POST ⟨[], 10, 60000⟩ "ip" 0 (some "bogus") (some "x") [] "id"
      (some "k")).tasks = [] ∧
    (POST ⟨[], 10, 60000⟩ "ip" 0 (some "bogus") (some "x") [] "id"
      (some "k")).res.isValidationError = true ∧
    (POST ⟨[], 10, 60000⟩ "ip" 0 (some "bogus") (some "x") [] "id"
      (some "k")).res.httpStatus = 400 := by
  have h := C4_validation ⟨[], 10, 60000⟩ "ip" 0 (some "bogus") (some "x") []
    "id" (some "k") (by decide)
  exact ⟨h.1, (h.2 rfl).1, (h.2 rfl).2⟩

end GenerateApi

/-- C3: for a key with no live window, a first check at `t0` and any
sequence of further checks at times within the window (at or before
`resetTime = t0 + windowMs`) succeed exactly for the first 10 calls (the
default limit), the i-th success returning `remaining = 10 - (i+1)`, and
every later call in the window fails with `remaining = 0`; the first check
after `resetTime` has passed succeeds again with `remaining = 10 - 1` and
resets the stored counter to 1 with a fresh window. -/
theorem C3_rate_limit_window (rl : RateLimit) (key : String) (t0 : Nat)
    (ts : List Nat) (hfresh : getKey rl.store key = none) (hlim : rl.limit = 10)
    (hwin : ∀ tt ∈ ts, tt ≤ t0 + rl.windowMs) :
    (runChecks rl key (t0 :: ts)).1 =
      (List.range (ts.length + 1)).map (fun i =>
        if i < 10 then ⟨true, (10 : Int) - ((i : Int) + 1)⟩ else ⟨false, 0⟩) ∧
    ∀ t', t0 + rl.windowMs < t' →
      ((runChecks rl key (t0 :: ts)).2.check key t').1 =
        ⟨true, (10 : Int) - 1⟩ ∧
      getKey (((runChecks rl key (t0 :: ts)).2.check key t').2).store key =
        some ⟨1, t' + rl.windowMs⟩ := by
  have hfirst := check_fresh rl key t0 hfresh
  have hg1 : getKey (setKey rl.store key ⟨1, t0 + rl.windowMs⟩) key =
      some ⟨1, t0 + rl.windowMs⟩ := getKey_setKey_self _ _ _
  obtain ⟨w1, w2, w3, w4⟩ :=
    runChecks_window key (t0 + rl.windowMs) ts
      { rl with store := setKey rl.store key ⟨1, t0 + rl.windowMs⟩ } 1
      hwin le_rfl (by dsimp only; omega) hg1
  dsimp only at w1 w2 w3 w4
  constructor
  · simp only [runChecks, hfirst, List.length_cons]
    rw [w1, List.range_succ_eq_map, List.map_cons, List.map_map]
    congr 1
    · simp [resultAt, hlim]
    · refine List.map_congr_left ?_
      intro i _
      simp only [Function.comp]
      have h1 : (1 : Nat) + i = i + 1 := by omega
      rw [h1, hlim]
      by_cases hi : i + 1 < 10 <;> simp [resultAt, hi]
  · intro t' ht'
    have hexp := check_expired (runChecks
        { rl with store := setKey rl.store key ⟨1, t0 + rl.windowMs⟩ } key ts).2
      key t' ⟨min (1 + ts.length) rl.limit, t0 + rl.windowMs⟩ w2
      (by dsimp only; omega)
    constructor
    · simp only [runChecks, hfirst]
      rw [hexp]
      dsimp only
      rw [w3, hlim]
      norm_num
    · simp only [runChecks, hfirst]
      rw [hexp]
      dsimp only
      rw [getKey_setKey_self, w4]

/-- C3, witness: with the default configuration, twelve checks at time 0
give ten successes with decreasing `remaining` and two failures with
`remaining = 0`; a later check at time 60001 (past the window) succeeds
with `remaining = 9` and restarts the counter at 1. -/
theorem C3_rate_limit_window_witness :
    (runChecks ⟨[], 10, 60000⟩ "k" (0 :: List.replicate 11 0)).1 =
      (List.range 12).map (fun i =>
        if i < 10 then ⟨true, (10 : Int) - ((i : Int) + 1)⟩ else ⟨false, 0⟩) ∧
    ((runChecks ⟨[], 10, 60000⟩ "k" (0 :: List.replicate 11 0)).2.check "k"
        60001).1 = ⟨true, (10 : Int) - 1⟩ ∧
    getKey (((runChecks ⟨[], 10, 60000⟩ "k" (0 :: List.replicate 11 0)).2.check
        "k" 60001).2).store "k" = some ⟨1, 60001 + 60000⟩ := by
  have h := C3_rate_limit_window ⟨[], 10, 60000⟩ "k" 0 (List.replicate 11 0)
    rfl rfl (by decide)
  have h2 := h.2 60001 (by decide)
  exact ⟨by simpa using h.1, h2.1, h2.2⟩

/-- C9: a failing `RateLimit.check` returns the limiter unchanged (in
particular the key's `count` and `resetTime` are untouched), and `check`
preserves the invariant that every stored `count` is at most the configured
limit (provided the limit is at least 1, as in the default configuration). -/
theorem C9_rate_limit_invariants (rl : RateLimit) (key : String) (now : Nat) :
    ((rl.check key now).1.success = false → (rl.check key now).2 = rl) ∧
    (1 ≤ rl.limit →
      (∀ k e, getKey rl.store k = some e → e.count ≤ rl.limit) →
      ∀ k e, getKey (rl.check key now).2.store k = some e →
        e.count ≤ rl.limit) := by
  cases hg : getKey rl.store key with
  | none =>
      rw [check_fresh rl key now hg]
      constructor
      · intro h
        simp at h
      · intro hlim hb k e hge
        dsimp only at hge
        by_cases hk : key = k
        · subst hk
          rw [getKey_setKey_self] at hge
          obtain rfl := Option.some.inj hge
          exact hlim
        · rw [getKey_setKey_ne _ _ _ _ hk] at hge
          exact hb k e hge
  | some en =>
      by_cases hx : en.resetTime < now
      · rw [check_expired rl key now en hg hx]
        constructor
        · intro h
          simp at h
        · intro hlim hb k e hge
          dsimp only at hge
          by_cases hk : key = k
          · subst hk
            rw [getKey_setKey_self] at hge
            obtain rfl := Option.some.inj hge
            exact hlim
          · rw [getKey_setKey_ne _ _ _ _ hk, getKey_delKey_ne _ _ _ hk] at hge
            exact hb k e hge
      · by_cases hl : rl.limit ≤ en.count
        · rw [check_limited rl key now en hg (by omega) hl]
          exact ⟨fun _ => rfl, fun hlim hb k e hge => hb k e hge⟩
        · rw [check_increment rl key now en hg (by omega) (by omega)]
          constructor
          · intro h
            simp at h
          · intro hlim hb k e hge
            dsimp only at hge
            by_cases hk : key = k
            · subst hk
              rw [getKey_setKey_self] at hge
              obtain rfl := Option.some.inj hge
              dsimp only
              omega
            · rw [getKey_setKey_ne _ _ _ _ hk] at hge
              exact hb k e hge

/-- C9, witness: a check that fails (count already at the limit, window not
expired) leaves the limiter state exactly as it was, and the stored count
stays at the limit. -/
theorem C9_rate_limit_invariants_witness :
    ((⟨[("a", ⟨10, 100⟩)], 10, 60000⟩ : RateLimit).check "a" 50).2 =
      (⟨[("a", ⟨10, 100⟩)], 10, 60000⟩ : RateLimit) ∧
    ∀ e : RateLimitEntry,
      getKey ((⟨[("a", ⟨10, 100⟩)], 10, 60000⟩ : RateLimit).check "a" 50).2.store
        "a" = some e → e.count ≤ 10 := by
  have h := C9_rate_limit_invariants ⟨[("a", ⟨10, 100⟩)], 10, 60000⟩ "a" 50
  refine ⟨h.1 rfl, fun e hge => ?_⟩
  refine h.2 (by decide) ?_ "a" e hge
  intro k e' hge'
  simp only [getKey] at hge'
  by_cases hk : "a" = k
  · rw [if_pos hk] at hge'
    obtain rfl := Option.some.inj hge'
    decide
  · rw [if_neg hk] at hge'
    cases hge'

namespace GenerateVideoApi

/-- C10: a `POST /api/generate-video` whose uploaded file does not have an
`image/*` MIME type (or whose prompt is missing) is answered with a 400
validation error before anything else happens: no upstream call is made and
the `videoTasks` store is unchanged. -/
theorem C10_invalid_file_type (store : VStore) (img : UploadedFile)
    (prompt? : Option String) (apiKey : Option String) (now : Nat)
    (sdk : SdkOutcome) (fbRead : Bool) (fb : FallbackResponse)
    (hmime : strStartsWith img.mimeType "image/" = false) :
    (POST store (some img) prompt? apiKey now sdk fbRead fb).1.isBadRequest =
      true ∧
    (POST store (some img) prompt? apiKey now sdk fbRead fb).1.httpStatus = 400 ∧
    (POST store (some img) prompt? apiKey now sdk fbRead fb).2.1 = store ∧
    (POST store (some img) prompt? apiKey now sdk fbRead fb).2.2 = false := by
  cases prompt? with
  | none =>
      simp [POST, PostVideoResult.isBadRequest, PostVideoResult.httpStatus]
  | some p =>
      simp [POST, hmime, PostVideoResult.isBadRequest, PostVideoResult.httpStatus]

/-- C10, witness: a `video/mp4` upload is rejected with 400, no upstream
call, store untouched. -/
theorem C10_invalid_file_type_witness :
    (POST [] (some ⟨"video/mp4"⟩) (some "a cat") (some "key") 0
      (.ok "tid") true ⟨true, "tid", some "pending", ""⟩).1.isBadRequest =
      true ∧
    (POST [] (some ⟨"video/mp4"⟩) (some "a cat") (some "key") 0
      (.ok "tid") true ⟨true, "tid", some "pending", ""⟩).1.httpStatus = 400 ∧
    (POST [] (some ⟨"video/mp4"⟩) (some "a cat") (some "key") 0
      (.ok "tid") true ⟨true, "tid", some "pending", ""⟩).2.1 = [] ∧
    (POST [] (some ⟨"video/mp4"⟩) (some "a cat") (some "key") 0
      (.ok "tid") true ⟨true, "tid", some "pending", ""⟩).2.2 = false :=
  C10_invalid_file_type [] ⟨"video/mp4"⟩ (some "a cat") (some "key") 0
    (.ok "tid") true ⟨true, "tid", some "pending", ""⟩ (by decide)

/-- C1, counterexample: the `GET /api/generate-video` handler overwrites the
stored status with whatever status the upstream reports; a record that is
`processing` is rewritten to `pending` when the upstream says so, a write
that is not forward along `pending → processing → {completed, failed}`. -/
theorem C1_counterexample :
    (GET [("t1", ⟨"t1", "processing", 50, none, none, 0⟩)] (some "t1")
        (some "k") ⟨true, "pending", none, none⟩).2 =
      [("t1", ⟨"t1", "pending", 50, none, none, 0⟩)] ∧
    ¬ specForwardWrite "processing" "pending" := by
  exact ⟨rfl, by decide⟩

/-- C5, counterexample: `GET /api/generate-video` with a task id absent from
its local store does not answer not-found: it proxies the upstream, and an
upstream failure surfaces as a 500, never a 404. -/
theorem C5_counterexample :
    getKey ([] : VStore) "ghost" = none ∧
    (GET ([] : VStore) (some "ghost") (some "k") ⟨false, "", none, none⟩).1 =
      .upstreamError ∧
    (GET ([] : VStore) (some "ghost") (some "k")
      ⟨false, "", none, none⟩).1.httpStatus = 500 ∧
    (GET ([] : VStore) (some "ghost") (some "k")
      ⟨false, "", none, none⟩).1.httpStatus ≠ 404 := by
  refine ⟨rfl, rfl, rfl, by decide⟩

/-- C8, counterexample: in the `videoTasks` store, fields written by earlier
`GET` updates are never cleared, so after the upstream reports `SUCCEEDED`
(storing `videoUrl`) and later `FAILED` (storing `error`), the record holds
a result URL while its status is the failed one — the result field is not
present only under the completed status. -/
theorem C8_counterexample :
    getKey (GET (GET [("t1", ⟨"t1", "pending", 0, none, none, 0⟩)] (some "t1")
          (some "k") ⟨true, "SUCCEEDED", some "u", none⟩).2 (some "t1")
        (some "k") ⟨true, "FAILED", none, some "e"⟩).2 "t1" =
      some ⟨"t1", "FAILED", 0, some "u", some "e", 0⟩ ∧
    (some "u" : Option String).isSome = true ∧
    ("FAILED" : String) ≠ "completed" ∧ ("FAILED" : String) ≠ "SUCCEEDED" := by
  refine ⟨rfl, rfl, by decide, by decide⟩

end GenerateVideoApi

namespace GenerateApi

/-- C5, amended: `GET /api/generate` answers 404 exactly for ids absent from
its store and returns the current record for present ids (with a non-empty
id parameter); `GET /api/generate-video`, by contrast, never answers
not-found — it consults the upstream, not local presence. -/
theorem C5_status_query :
    (∀ (tasks : TaskStore) (tid : String), tid ≠ "" → getKey tasks tid = none →
      GET tasks (some tid) = .notFound ∧
      (GET tasks (some tid)).httpStatus = 404) ∧
    (∀ (tasks : TaskStore) (tid : String) (t : Task), tid ≠ "" →
      getKey tasks tid = some t → GET tasks (some tid) = .ok t) ∧
    (∀ (store : GenerateVideoApi.VStore) (taskId? : Option String)
      (apiKey : Option String) (resp : GenerateVideoApi.StatusResponse),
      (GenerateVideoApi.GET store taskId? apiKey resp).1.httpStatus ≠ 404) := by
  refine ⟨?_, ?_, ?_⟩
  · intro tasks tid htid hnone
    constructor
    · simp [GET, falsyStr, htid, hnone]
    · simp [GET, falsyStr, htid, hnone, GetResult.httpStatus]
  · intro tasks tid t htid hsome
    simp [GET, falsyStr, htid, hsome]
  · intro store taskId? apiKey resp
    cases taskId? with
    | none =>
        simp [GenerateVideoApi.GET, falsyStr,
          GenerateVideoApi.GetVideoResult.httpStatus]
    | some tid =>
        by_cases htid : tid = ""
        · simp [GenerateVideoApi.GET, falsyStr, htid,
            GenerateVideoApi.GetVideoResult.httpStatus]
        · cases apiKey with
          | none =>
              simp [GenerateVideoApi.GET, falsyStr, htid,
                GenerateVideoApi.GetVideoResult.httpStatus]
          | some k =>
              cases hok : resp.ok with
              | false =>
                  simp [GenerateVideoApi.GET, falsyStr, htid, hok,
                    GenerateVideoApi.GetVideoResult.httpStatus]
              | true =>
                  simp [GenerateVideoApi.GET, falsyStr, htid, hok,
                    GenerateVideoApi.GetVideoResult.httpStatus]

/-- C5, witness: on a one-task store, an unknown id yields 404, the known id
yields its record, and a generate-video query never yields 404. -/
theorem C5_status_query_witness :
    (GET [("t1", ⟨"t1", .video, .pending, 0, none, none, 0⟩)] (some "nope") =
      .notFound ∧
     (GET [("t1", ⟨"t1", .video, .pending, 0, none, none, 0⟩)]
       (some "nope")).httpStatus = 404) ∧
    GET [("t1", ⟨"t1", .video, .pending, 0, none, none, 0⟩)] (some "t1") =
      .ok ⟨"t1", .video, .pending, 0, none, none, 0⟩ ∧
    (GenerateVideoApi.GET [] (some "zzz") (some "k")
      ⟨true, "RUNNING", none, none⟩).1.httpStatus ≠ 404 := by
  have h := C5_status_query
  exact ⟨h.1 _ "nope" (by decide) rfl,
         h.2.1 _ "t1" _ (by decide) rfl,
         h.2.2 [] (some "zzz") (some "k") ⟨true, "RUNNING", none, none⟩⟩

/-- C7, counterexample: with `RUNWAY_API_KEY` absent, an admitted
`POST /api/generate` request is still answered 200 with a task id — not the
claimed 500 — and the configuration failure is only recorded inside the
task, which is immediately `failed`. -/
theorem C7_counterexample :
    (POST ⟨[], 10, 60000⟩ "ip" 0 (some "video") (some "p") [] "id" none).res =
      .created "id" ∧
    (POST ⟨[], 10, 60000⟩ "ip" 0 (some "video") (some "p") [] "id"
      none).res.httpStatus = 200 ∧
    (200 : Nat) ≠ 500 ∧
    getKey (POST ⟨[], 10, 60000⟩ "ip" 0 (some "video") (some "p") [] "id"
        none).tasks "id" =
      some ⟨"id", .video, .failed, 0, none,
        some "RUNWAY_API_KEY is not configured", 0⟩ := by
  refine ⟨rfl, rfl, by decide, rfl⟩

/-- C7, amended: when `RUNWAY_API_KEY` is absent, `GET /api/generate-video`
(called with a task id) is answered with the 500 configuration error and
its store is untouched; `POST /api/generate`, however, checks the key only
inside the background processor: an admitted request is answered 200 with
the task id, and the stored task is `failed` with the configuration-error
message. -/
theorem C7_missing_key :
    (∀ (store : GenerateVideoApi.VStore) (tid : String)
      (resp : GenerateVideoApi.StatusResponse), tid ≠ "" →
      GenerateVideoApi.GET store (some tid) none resp =
        (.configError, store) ∧
      (GenerateVideoApi.GET store (some tid) none resp).1.httpStatus = 500) ∧
    (∀ (rl : RateLimit) (ip : String) (now : Nat)
      (type? prompt? : Option String) (tasks : TaskStore) (taskId : String),
      (POST rl ip now type? prompt? tasks taskId none).res = .created taskId →
      (POST rl ip now type? prompt? tasks taskId none).res.httpStatus = 200 ∧
      getKey (POST rl ip now type? prompt? tasks taskId none).tasks taskId =
        some ⟨taskId, parseType (type?.getD ""), .failed, 0, none,
          some "RUNWAY_API_KEY is not configured", now⟩) := by
  constructor
  · intro store tid resp htid
    constructor
    · simp [GenerateVideoApi.GET, falsyStr, htid]
    · simp [GenerateVideoApi.GET, falsyStr, htid,
        GenerateVideoApi.GetVideoResult.httpStatus]
  · intro rl ip now type? prompt? tasks taskId hcreated
    obtain ⟨-, hcase⟩ := POST_spec rl ip now type? prompt? tasks taskId none
    rcases hcase with ⟨-, -, -, hne⟩ | ⟨-, -, hbr⟩
    · exact absurd hcreated (hne taskId)
    rcases hbr with ⟨-, htasks, -, -⟩ | ⟨hk, -, -, -⟩
    · refine ⟨by simp [hcreated, PostResult.httpStatus], ?_⟩
      rw [htasks]
      exact getKey_setKey_self _ _ _
    · exact absurd rfl hk

/-- C7, witness: with the key absent, a generate-video status query returns
the 500 configuration error, and an admitted generate request returns 200
with the task failed in the store. -/
theorem C7_missing_key_witness :
    (GenerateVideoApi.GET [] (some "t9") none ⟨true, "RUNNING", none, none⟩ =
      (.configError, []) ∧
     (GenerateVideoApi.GET [] (some "t9") none
       ⟨true, "RUNNING", none, none⟩).1.httpStatus = 500) ∧
    ((POST ⟨[], 10, 60000⟩ "ip" 7 (some "image") (some "p") [] "t9"
       none).res.httpStatus = 200 ∧
     getKey (POST ⟨[], 10, 60000⟩ "ip" 7 (some "image") (some "p") [] "t9"
        none).tasks "t9" =
      some ⟨"t9", parseType ((some "image").getD ""), .failed, 0, none,
        some "RUNWAY_API_KEY is not configured", 7⟩) := by
  have h := C7_missing_key
  exact ⟨h.1 [] "t9" ⟨true, "RUNNING", none, none⟩ (by decide),
         h.2 ⟨[], 10, 60000⟩ "ip" 7 (some "image") (some "p") [] "t9" rfl⟩

theorem step_s0_s1 : Step (some "k") ⟨[], [], []⟩ s1 :=
  Step.post ⟨[], [], []⟩ ⟨[], 10, 60000⟩ "ip" 0 (some "video") (some "p")
    "t1" rfl rfl

theorem step_s1_s2 : Step (some "k") s1 s2 :=
  Step.finish s1 "t1" .video ⟨true, "", "", some "u"⟩ (by decide)

theorem reach_s1 : Reachable (some "k") s1 :=
  Reachable.step Reachable.init step_s0_s1

theorem reach_s2 : Reachable (some "k") s2 :=
  Reachable.step reach_s1 step_s1_s2

/-- C1, amended: in the `/api/generate` task store every step of the system
moves the status of every surviving record forward along
`pending → processing → {completed, failed}` (the admitted `POST` stores the
record already in `processing`, having passed through `pending`
synchronously), and a record in a terminal state never changes status
again; `GET` never writes.  (The `/api/generate-video` store does not share
this property: its `GET` copies the upstream status verbatim.) -/
theorem C1_forward_generate (apiKey : Option String) (s s' : Sys)
    (hr : Reachable apiKey s) (hst : Step apiKey s s') (id : String)
    (t t' : Task) (ht : getKey s.tasks id = some t)
    (ht' : getKey s'.tasks id = some t') :
    specForward t.status t'.status ∧
    ((t.status = .completed ∨ t.status = .failed) → t'.status = t.status) := by
  have h := step_forward (reachable_inv hr) hst id t t' ht ht'
  exact ⟨h, fun hterm => specForward_terminal h hterm⟩

/-- C1, witness: the finishing step takes the sample task from `processing`
to `completed`, a forward move. -/
theorem C1_forward_generate_witness :
    specForward procRec.status doneRec.status ∧
    ((procRec.status = .completed ∨ procRec.status = .failed) →
      doneRec.status = procRec.status) :=
  C1_forward_generate (some "k") s1 s2 reach_s1 step_s1_s2 "t1" procRec
    doneRec rfl rfl

/-- C6: in every reachable state of the `/api/generate` slice, every
completed record has its deletion scheduled with delay 3600000 ms and every
failed record with delay 900000 ms; every scheduled deletion points at a
live terminal record with exactly those delays; and the only step that
removes a record from the store is the firing of a scheduled deletion —
`POST` and the processor never delete. -/
theorem C6_cleanup_schedule (apiKey : Option String) (s : Sys)
    (hr : Reachable apiKey s) :
    (∀ id t, getKey s.tasks id = some t →
      (t.status = .completed → (id, 3600000) ∈ s.cleanups) ∧
      (t.status = .failed → (id, 900000) ∈ s.cleanups)) ∧
    (∀ id d, (id, d) ∈ s.cleanups →
      ∃ t, getKey s.tasks id = some t ∧
        ((t.status = .completed ∧ d = 3600000) ∨
         (t.status = .failed ∧ d = 900000))) ∧
    (∀ s', Step apiKey s s' → ∀ id t, getKey s.tasks id = some t →
      getKey s'.tasks id = none → ∃ d, (id, d) ∈ s.cleanups) := by
  obtain ⟨hf, hj, hc, ht, hjn, hcn⟩ := reachable_inv hr
  refine ⟨ht, hc, ?_⟩
  intro s' hst id t hget hnone
  cases hst with
  | post rl ip now type? prompt? taskId hfresh hcreated =>
      obtain ⟨-, hcase⟩ := POST_spec rl ip now type? prompt? s.tasks taskId apiKey
      rcases hcase with ⟨heq, -, -, hne⟩ | ⟨-, -, hbr⟩
      · exact absurd hcreated (hne taskId)
      have hid : taskId ≠ id := fun h => by rw [h, hget] at hfresh; cases hfresh
      rcases hbr with ⟨-, htasks, -, -⟩ | ⟨-, htasks, -, -⟩ <;>
        rw [htasks, getKey_setKey_ne _ _ _ _ hid, hget] at hnone <;> cases hnone
  | finish taskId ty resp hjob =>
      obtain ⟨t0, hg0, -, -, -⟩ := hj taskId ty hjob
      by_cases hid : taskId = id
      · subst hid
        cases hrw : runwayResult ty resp with
        | ok url =>
            rw [processTaskResume_ok _ _ _ _ t0 url hg0 hrw] at hnone
            dsimp only at hnone
            rw [getKey_setKey_self] at hnone
            cases hnone
        | error msg =>
            rw [processTaskResume_error _ _ _ _ t0 msg hg0 hrw] at hnone
            dsimp only at hnone
            rw [getKey_setKey_self] at hnone
            cases hnone
      · have hsame : getKey (processTaskResume s.tasks taskId ty resp).1 id =
            getKey s.tasks id := by
          cases hrw : runwayResult ty resp with
          | ok url =>
              rw [processTaskResume_ok _ _ _ _ t0 url hg0 hrw]
              exact getKey_setKey_ne _ _ _ _ hid
          | error msg =>
              rw [processTaskResume_error _ _ _ _ t0 msg hg0 hrw]
              exact getKey_setKey_ne _ _ _ _ hid
        rw [hsame, hget] at hnone
        cases hnone
  | expire taskId d hcu =>
      by_cases hid : taskId = id
      · subst hid
        exact ⟨d, hcu⟩
      · rw [getKey_delKey_ne _ _ _ hid, hget] at hnone
        cases hnone

/-- C6, witness: in the sample state the completed task has its deletion
scheduled at exactly 3600000 ms, and that schedule points at the completed
record. -/
theorem C6_cleanup_schedule_witness :
    ("t1", 3600000) ∈ s2.cleanups ∧
    ∃ t, getKey s2.tasks "t1" = some t ∧
      ((t.status = .completed ∧ 3600000 = 3600000) ∨
       (t.status = .failed ∧ 3600000 = 900000)) := by
  have h := C6_cleanup_schedule (some "k") s2 reach_s2
  exact ⟨(h.1 "t1" doneRec rfl).1 rfl, h.2.1 "t1" 3600000 (by decide)⟩

/-- C8, amended: in every reachable state of the `/api/generate` store, a
record with `result` present is `completed` and a record with `error`
present is `failed`; the writes that set these fields set the matching
terminal status in the same step.  (The `/api/generate-video` store does
not share this property: stale fields survive later status overwrites.) -/
theorem C8_terminal_fields (apiKey : Option String) (s : Sys)
    (hr : Reachable apiKey s) (id : String) (t : Task)
    (ht : getKey s.tasks id = some t) :
    (t.result.isSome = true → t.status = .completed) ∧
    (t.error.isSome = true → t.status = .failed) :=
  (reachable_inv hr).1 id t ht

/-- C8, witness: the completed sample record carries a result and no error,
in line with the field discipline. -/
theorem C8_terminal_fields_witness :
    ((doneRec.result.isSome = true → doneRec.status = .completed) ∧
     (doneRec.error.isSome = true → doneRec.status = .failed)) :=
  C8_terminal_fields (some "k") s2 reach_s2 "t1" doneRec rfl

end GenerateApi
